import Mathlib

/-!
Verification of the posixread native module.

The development shallowly embeds the two C++ sources of the repository:

* the async NAN worker (`LooksLikeASocket`, `SocketIsReadable`,
  `GetFdFromSocket`, `ErrorWithProperty`, `PosixReadWorker::SetBlocking`,
  `PosixReadWorker::UnsetBlocking`, `PosixReadWorker::Execute`,
  `PosixReadWorker::HandleOKCallback`, `PosixReadWorker::HandleErrorCallback`
  and the exported `Read` entry point), and
* the legacy synchronous variant (`get_fd_from_socket` and its `Read`) found
  under `src/cpp/posixread.cpp`.

OS interaction (malloc, fcntl, read) is made explicit through an oracle
configuration: each fallible call is a field recording whether it succeeds and
with which value or errno, and the descriptor is a byte stream together with a
schedule saying how many bytes each `read` call hands over (or which errno it
fails with).  JavaScript values are a small inductive with numbers as
rationals, so that the V8 `ToInt32` truncation of non-integer arguments is
modelled faithfully.
-/

/-- errno value for an interrupted system call, as used by the C sources. -/
def EINTR : Nat := 4

/-- errno value for operation-would-block, as used by the C sources. -/
def EAGAIN : Nat := 11

/-- The Linux O_NONBLOCK file-status flag bit (octal 04000). -/
def oNONBLOCK : Nat := 2048

/-- Whether a fcntl F_GETFL flags word has the O_NONBLOCK bit set
(the C test is the bitwise and in SetBlocking). -/
def nbSet (opts : Nat) : Bool := opts &&& oNONBLOCK != 0

/-- Model of libc strerror for the errnos the development mentions. -/
def strerror (e : Nat) : String :=
  if e = EINTR then "Interrupted system call"
  else if e = EAGAIN then "Resource temporarily unavailable"
  else "Unknown error " ++ toString e

/-- One scheduled behaviour of a read(2) call: either fail with an errno, or
offer m bytes (the call actually returns at most the requested byte count and
at most what the stream still holds; an offer that yields 0 bytes is the
end-of-stream return value 0). -/
inductive RdStep where
  | rerr (e : Nat)
  | rok (m : Nat)
deriving DecidableEq

/-- Result of the bounded read loop of PosixReadWorker::Execute: the loop exits
with a full buffer, a read(2) failure, or end of stream.  Each result carries
the not-yet-consumed rest of the descriptor's byte stream. -/
inductive LoopRes where
  | success (buf : List Nat) (rest : List Nat)
  | sysErr (e : Nat) (count : Nat) (rest : List Nat)
  | eof (count : Nat) (rest : List Nat)
deriving DecidableEq

/-- Final value of the local variable count for a loop result. -/
def LoopRes.countOf : LoopRes → Nat
  | LoopRes.success buf _ => buf.length
  | LoopRes.sysErr _ c _ => c
  | LoopRes.eof c _ => c

/-- The bytes left in the descriptor after the loop. -/
def LoopRes.restOf : LoopRes → List Nat
  | LoopRes.success _ s => s
  | LoopRes.sysErr _ _ s => s
  | LoopRes.eof _ s => s

/-- The do-while read loop of PosixReadWorker::Execute (part_003, lines
193-214).  Each call requests exactly size - count bytes; -1 with errno EINTR
retries, any other errno is a read failure, 0 is end of stream, and a positive
return appends the delivered bytes and advances count.  The schedule drives
one read(2) call per entry; an exhausted schedule (the C loop would simply
keep reading) yields none. -/
def runLoop (size : Nat) : Nat → List Nat → List Nat → List RdStep → Option LoopRes
  | _, _, _, [] => none
  | count, buf, s, RdStep.rerr e :: rest =>
      if e = EINTR then runLoop size count buf s rest
      else some (LoopRes.sysErr e count s)
  | count, buf, s, RdStep.rok m :: rest =>
      let n := min m (min (size - count) s.length)
      if n = 0 then some (LoopRes.eof count s)
      else if count + n < size then
        runLoop size (count + n) (buf ++ s.take n) (s.drop n) rest
      else some (LoopRes.success (buf ++ s.take n) (s.drop n))

/-- The read loop of the legacy synchronous Read (src/cpp/posixread.cpp,
lines 120-146); identical except that errno EAGAIN is also retried. -/
def runLoopL (size : Nat) : Nat → List Nat → List Nat → List RdStep → Option LoopRes
  | _, _, _, [] => none
  | count, buf, s, RdStep.rerr e :: rest =>
      if e = EINTR ∨ e = EAGAIN then runLoopL size count buf s rest
      else some (LoopRes.sysErr e count s)
  | count, buf, s, RdStep.rok m :: rest =>
      let n := min m (min (size - count) s.length)
      if n = 0 then some (LoopRes.eof count s)
      else if count + n < size then
        runLoopL size (count + n) (buf ++ s.take n) (s.drop n) rest
      else some (LoopRes.success (buf ++ s.take n) (s.drop n))

/-- Outcome recorded on the worker when Execute finishes: either no error
message (NAN then runs HandleOKCallback) or an error property plus message
(NAN then runs HandleErrorCallback). -/
inductive ExecOut where
  | okDone
  | errDone (prop : String) (msg : String)
deriving DecidableEq

/-- State left by one run of PosixReadWorker::Execute: the recorded outcome,
the bytes written into the malloc'd data buffer, whether free(data) was
called, how many times O_NONBLOCK was successfully re-applied, the bytes
still unconsumed in the descriptor, and the final count. -/
structure ExecResult where
  out : ExecOut
  buffer : List Nat
  freed : Bool
  restoreApplied : Nat
  remaining : List Nat
  count : Nat
deriving DecidableEq

deriving instance DecidableEq for Except

/-- Oracle for the OS calls one Execute run performs: malloc success, the
F_GETFL flags (or its errno), the F_SETFL clearing O_NONBLOCK, the read(2)
schedule, and the F_GETFL / F_SETFL pair of UnsetBlocking. -/
structure ExecCfg where
  allocOk : Bool
  allocErrno : Nat
  getfl : Except Nat Nat
  setfl : Except Nat Unit
  sched : List RdStep
  rGetfl : Except Nat Nat
  rSetfl : Except Nat Unit
deriving DecidableEq

/-- PosixReadWorker::UnsetBlocking: when the descriptor was non-blocking at
entry, F_GETFL then F_SETFL with O_NONBLOCK or'ed back in; returns the error
of the first failing call and the number of successful re-applications. -/
def unsetBlocking (cfg : ExecCfg) (wnb : Bool) : Except Nat Unit × Nat :=
  if wnb then
    match cfg.rGetfl with
    | Except.error e => (Except.error e, 0)
    | Except.ok _ =>
        match cfg.rSetfl with
        | Except.error e => (Except.error e, 0)
        | Except.ok _ => (Except.ok (), 1)
  else (Except.ok (), 0)

/-- The tail of PosixReadWorker::Execute after the read loop (part_003, lines
204-223): record the loop outcome, then call UnsetBlocking; a restore failure
is reported as a systemError only when no error message was already set, in
which case the buffer is also freed. -/
def afterLoop (cfg : ExecCfg) (wnb : Bool) (res : LoopRes) : ExecResult :=
  match res with
  | LoopRes.success b r =>
      match (unsetBlocking cfg wnb).1 with
      | Except.error e =>
          { out := ExecOut.errDone "systemError" ("fnctl failed: " ++ strerror e),
            buffer := b, freed := true,
            restoreApplied := (unsetBlocking cfg wnb).2, remaining := r, count := b.length }
      | Except.ok _ =>
          { out := ExecOut.okDone, buffer := b, freed := false,
            restoreApplied := (unsetBlocking cfg wnb).2, remaining := r, count := b.length }
  | LoopRes.sysErr e c r =>
      { out := ExecOut.errDone "systemError" ("read failed: " ++ strerror e),
        buffer := [], freed := true,
        restoreApplied := (unsetBlocking cfg wnb).2, remaining := r, count := c }
  | LoopRes.eof c r =>
      { out := ExecOut.errDone "endOfFile"
                 ("reached end of stream (read " ++ toString c ++ " bytes)"),
        buffer := [], freed := true,
        restoreApplied := (unsetBlocking cfg wnb).2, remaining := r, count := c }

/-- Result of the early return of Execute when malloc fails: systemError,
nothing consumed, free not called (data is NULL). -/
def mallocFailRes (stream : List Nat) (cfg : ExecCfg) : ExecResult :=
  { out := ExecOut.errDone "systemError" ("malloc failed: " ++ strerror cfg.allocErrno),
    buffer := [], freed := false, restoreApplied := 0, remaining := stream, count := 0 }

/-- Result of the early return of Execute when SetBlocking fails (either
fcntl call): systemError with the message of the source (which spells the
call "fnctl"), data freed, the loop never entered. -/
def fcntlFailRes (stream : List Nat) (e : Nat) : ExecResult :=
  { out := ExecOut.errDone "systemError" ("fnctl failed: " ++ strerror e),
    buffer := [], freed := true, restoreApplied := 0, remaining := stream, count := 0 }

/-- PosixReadWorker::Execute (part_003, lines 173-224): malloc the buffer,
SetBlocking (F_GETFL, record whether O_NONBLOCK was set, clear it if so),
run the bounded read loop, then UnsetBlocking.  none only when the read
schedule is exhausted before the loop exits. -/
def execWorker (size : Nat) (stream : List Nat) (cfg : ExecCfg) : Option ExecResult :=
  if cfg.allocOk = false then some (mallocFailRes stream cfg)
  else
    match cfg.getfl with
    | Except.error e => some (fcntlFailRes stream e)
    | Except.ok opts =>
        if nbSet opts then
          match cfg.setfl with
          | Except.error e => some (fcntlFailRes stream e)
          | Except.ok _ => (runLoop size 0 [] stream cfg.sched).map (afterLoop cfg true)
        else (runLoop size 0 [] stream cfg.sched).map (afterLoop cfg false)

/-- Whether the descriptor was non-blocking at entry for this oracle, i.e.
the value SetBlocking records into fd_was_non_blocking. -/
def wasNB (cfg : ExecCfg) : Bool :=
  match cfg.getfl with
  | Except.ok opts => nbSet opts
  | Except.error _ => false

/-- Whether an Execute run with this oracle reaches the read loop: malloc
succeeds, F_GETFL succeeds, and if the O_NONBLOCK bit was set the clearing
F_SETFL succeeds too. -/
def reachesLoop (cfg : ExecCfg) : Bool :=
  cfg.allocOk &&
    match cfg.getfl with
    | Except.error _ => false
    | Except.ok opts =>
        if nbSet opts then
          match cfg.setfl with
          | Except.ok _ => true
          | Except.error _ => false
        else true

/-- Whether UnsetBlocking would fail for this oracle (one of its two fcntl
calls returns -1). -/
def restoreFails (cfg : ExecCfg) : Bool :=
  match cfg.rGetfl with
  | Except.error _ => true
  | Except.ok _ =>
      match cfg.rSetfl with
      | Except.error _ => true
      | Except.ok _ => false

/-- A single invocation of the completion callback: HandleOKCallback passes
(null, buffer), HandleErrorCallback passes one Error object whose property
list records which boolean flags ErrorWithProperty set on it. -/
inductive Delivery where
  | successCb (buf : List Nat)
  | errorCb (props : List String) (msg : String)
deriving DecidableEq

/-- ErrorWithProperty (part_003, lines 105-114): an Error with the given
message and exactly the one given boolean property set. -/
def errorWithProperty (p m : String) : Delivery := Delivery.errorCb [p] m

/-- The NAN completion dispatch: HandleOKCallback transfers the data buffer
through callback(null, buffer) when no error message was set, otherwise
HandleErrorCallback passes the one-flag error. -/
def deliver (r : ExecResult) : Delivery :=
  match r.out with
  | ExecOut.okDone => Delivery.successCb r.buffer
  | ExecOut.errDone p m => errorWithProperty p m

/-- The terminal request outcomes named by the specification. -/
inductive Outcome where
  | Pending
  | Success
  | BadStream
  | EndOfFile
  | SystemError
deriving DecidableEq

/-- The outcome a delivered callback invocation encodes. -/
def outcomeOf : Delivery → Outcome
  | Delivery.successCb _ => Outcome.Success
  | Delivery.errorCb props _ =>
      if props = ["badStream"] then Outcome.BadStream
      else if props = ["endOfFile"] then Outcome.EndOfFile
      else if props = ["systemError"] then Outcome.SystemError
      else Outcome.Pending

/-- Model of the JavaScript values the binding inspects: numbers are
rationals so that V8's ToInt32 truncation of non-integers is explicit. -/
inductive JSVal where
  | undef
  | jsNull
  | jsBool (b : Bool)
  | num (q : ℚ)
  | str (s : String)
  | fn
  | obj (ctor : String) (fields : List (String × JSVal))

/-- Property lookup on an object's field list (first binding wins). -/
def lookupField : List (String × JSVal) → String → Option JSVal
  | [], _ => none
  | (k, v) :: rest, key => if k = key then some v else lookupField rest key

/-- Property read: socket->Has(key) followed by socket->Get(key). -/
def JSVal.getField : JSVal → String → Option JSVal
  | JSVal.obj _ fs, key => lookupField fs key
  | _, _ => none

/-- v8 Value::IsObject. -/
def JSVal.isObject : JSVal → Bool
  | JSVal.obj _ _ => true
  | _ => false

/-- v8 Value::IsNumber. -/
def JSVal.isNumber : JSVal → Bool
  | JSVal.num _ => true
  | _ => false

/-- v8 Value::IsFunction. -/
def JSVal.isFunction : JSVal → Bool
  | JSVal.fn => true
  | _ => false

/-- v8 Object::GetConstructorName (queried only after an IsObject check). -/
def JSVal.ctorName : JSVal → String
  | JSVal.obj c _ => c
  | _ => ""

/-- Truncation toward zero of a rational, the integer part ECMAScript ToInt32
starts from.  Both operands of the integer division are non-negative, so the
rounding convention of Int division is irrelevant. -/
def truncRat (q : ℚ) : Int :=
  if 0 ≤ q.num then q.num / (q.den : Int) else -((-q.num) / (q.den : Int))

/-- ECMAScript ToInt32 on a (finite) number: truncate toward zero, reduce
modulo 2^32, map into the signed 32-bit range.  This is what Nan::To<int>
(v8 Int32Value) computes. -/
def toInt32 (q : ℚ) : Int :=
  let m := (truncRat q).emod 4294967296
  if m < 2147483648 then m else m - 4294967296

/-- Nan::To<int> applied to a value (the sources only apply it after an
IsNumber check, so the default is never observed). -/
def numberToInt (v : JSVal) : Int :=
  match v with
  | JSVal.num q => toInt32 q
  | _ => 0

/-- LooksLikeASocket (part_003, lines 34-44): an object whose constructor
name is Socket. -/
def looksLikeASocket (v : JSVal) : Bool :=
  v.isObject && v.ctorName == "Socket"

/-- SocketIsReadable (part_003, lines 49-58): has a readable property that is
a boolean and is true. -/
def socketIsReadable (v : JSVal) : Bool :=
  match v.getField "readable" with
  | some (JSVal.jsBool b) => b
  | _ => false

/-- GetFdFromSocket (part_003, lines 64-97): the _handle property must exist,
be an object constructed as TCP, and carry a numeric fd whose Int32 value is
non-negative; every failure returns -1. -/
def getFdFromSocket (v : JSVal) : Int :=
  match v.getField "_handle" with
  | none => -1
  | some h =>
      match h with
      | JSVal.obj ctor fields =>
          if ctor = "TCP" then
            match lookupField fields "fd" with
            | some (JSVal.num q) =>
                if toInt32 q < 0 then -1 else toInt32 q
            | _ => -1
          else -1
      | _ => -1

/-- The size-argument test of Read (part_003, line 267): the argument is
accepted iff it is a number whose Int32 value is positive. -/
def sizeArgOk (v : JSVal) : Bool :=
  v.isNumber && decide (0 < numberToInt v)

/-- Result of the synchronous phase of Read: a thrown TypeError, a
synchronously delivered callback invocation, or a queued worker. -/
inductive SyncOut where
  | thrown (msg : String)
  | delivered (d : Delivery)
  | queued (fd : Int) (size : Nat)
deriving DecidableEq

/-- The exported Read entry point (part_003, lines 249-305), up to queueing
the worker: argument-count, socket-shape, size and callback checks throw
TypeErrors; the readable and file-descriptor run-time checks call the
callback with a badStream error; otherwise the worker is queued with the
resolved fd and size. -/
def readSync (args : List JSVal) : SyncOut :=
  match args with
  | [a0, a1, a2] =>
      if looksLikeASocket a0 = false then
        SyncOut.thrown "first argument should be a socket"
      else if sizeArgOk a1 = false then
        SyncOut.thrown "second argument should be a positive integer"
      else if a2.isFunction = false then
        SyncOut.thrown "third argument should be a function"
      else if socketIsReadable a0 = false then
        SyncOut.delivered (errorWithProperty "badStream" "socket is not readable")
      else if getFdFromSocket a0 = -1 then
        SyncOut.delivered (errorWithProperty "badStream"
          "malformed socket object, cannot get file descriptor")
      else SyncOut.queued (getFdFromSocket a0) (numberToInt a1).toNat
  | _ => SyncOut.thrown "wrong number of arguments"

/-- Terminal observable behaviour of one read call: either a synchronously
thrown TypeError, or exactly one completion-callback invocation. -/
inductive PipeOut where
  | thrown (msg : String)
  | delivered (d : Delivery)
deriving DecidableEq

/-- The whole pipeline of one posixread.read call: the synchronous phase,
then (when a worker was queued) Execute followed by the NAN completion
dispatch on the caller's loop. -/
def posixRead (args : List JSVal) (stream : List Nat) (cfg : ExecCfg) : Option PipeOut :=
  match readSync args with
  | SyncOut.thrown m => some (PipeOut.thrown m)
  | SyncOut.delivered d => some (PipeOut.delivered d)
  | SyncOut.queued _ size =>
      (execWorker size stream cfg).map (fun r => PipeOut.delivered (deliver r))

/-- Oracle for the legacy synchronous Read of src/cpp/posixread.cpp: the
F_GETFL flags (none means the call failed, on which the code exits the
process), the clearing F_SETFL, the read schedule, and the restoring
F_SETFL. -/
structure LegacyCfg where
  getfl : Option Nat
  setfl : Bool
  sched : List RdStep
  rSetfl : Bool
deriving DecidableEq

/-- Terminal behaviour of the legacy synchronous Read: process exit (its
fcntl failure handling), a thrown Error, or the buffer returned. -/
inductive LegacyOut where
  | exited
  | thrownErr (msg : String)
  | okBuf (buf : List Nat)
deriving DecidableEq

/-- State left by the legacy synchronous Read after the blocking-mode guard
and read loop. -/
structure LegacyResult where
  out : LegacyOut
  restoreApplied : Nat
  remaining : List Nat
  wasNonBlocking : Bool
deriving DecidableEq

/-- The tail of the legacy Read after its read loop (src/cpp/posixread.cpp,
lines 122-154): read failure and end-of-stream throw and return immediately,
without restoring O_NONBLOCK; only the success path re-applies it (process
exit if that fcntl fails). -/
def legacyAfter (cfg : LegacyCfg) (wnb : Bool) (res : LoopRes) : LegacyResult :=
  match res with
  | LoopRes.sysErr e _ r =>
      { out := LegacyOut.thrownErr ("read failed: " ++ strerror e),
        restoreApplied := 0, remaining := r, wasNonBlocking := wnb }
  | LoopRes.eof c r =>
      { out := LegacyOut.thrownErr
                 ("reached end of stream (read " ++ toString c ++ " bytes)"),
        restoreApplied := 0, remaining := r, wasNonBlocking := wnb }
  | LoopRes.success b r =>
      if wnb then
        if cfg.rSetfl then
          { out := LegacyOut.okBuf b, restoreApplied := 1, remaining := r,
            wasNonBlocking := wnb }
        else
          { out := LegacyOut.exited, restoreApplied := 0, remaining := r,
            wasNonBlocking := wnb }
      else
        { out := LegacyOut.okBuf b, restoreApplied := 0, remaining := r,
          wasNonBlocking := wnb }

/-- The legacy synchronous Read of src/cpp/posixread.cpp after validation:
F_GETFL (exit on failure), clear O_NONBLOCK if set (exit on failure), run the
EINTR/EAGAIN-tolerant read loop, then the tail above. -/
def execLegacy (size : Nat) (stream : List Nat) (cfg : LegacyCfg) : Option LegacyResult :=
  match cfg.getfl with
  | none =>
      some { out := LegacyOut.exited, restoreApplied := 0, remaining := stream,
             wasNonBlocking := false }
  | some opts =>
      if nbSet opts && !cfg.setfl then
        some { out := LegacyOut.exited, restoreApplied := 0, remaining := stream,
               wasNonBlocking := nbSet opts }
      else (runLoopL size 0 [] stream cfg.sched).map (legacyAfter cfg (nbSet opts))

/-- The error Execute records for a loop result that is not a success (the
property and message of the systemError and endOfFile branches). -/
def loopErrOut : LoopRes → Option ExecOut
  | LoopRes.success _ _ => none
  | LoopRes.sysErr e _ _ =>
      some (ExecOut.errDone "systemError" ("read failed: " ++ strerror e))
  | LoopRes.eof c _ =>
      some (ExecOut.errDone "endOfFile"
        ("reached end of stream (read " ++ toString c ++ " bytes)"))

/-- A well-formed net.Socket value: readable, with a TCP handle exposing
descriptor 5. -/
def sampleSocket : JSVal :=
  JSVal.obj "Socket"
    [("readable", JSVal.jsBool true),
     ("_handle", JSVal.obj "TCP" [("fd", JSVal.num (Rat.mk' 5 1))])]

/-- Oracle in which the single read call fails with errno EAGAIN. -/
def eagainCfg : ExecCfg :=
  { allocOk := true, allocErrno := 0, getfl := Except.ok 0,
    setfl := Except.ok (), sched := [RdStep.rerr EAGAIN],
    rGetfl := Except.ok 0, rSetfl := Except.ok () }

/-- Legacy-variant oracle for C3: the descriptor is non-blocking at entry and
the clearing F_SETFL succeeds, so the guard has cleared the flag; the peer
has already closed, so the first read returns 0. -/
def legacyNbCfg : LegacyCfg :=
  { getfl := some oNONBLOCK, setfl := true, sched := [RdStep.rok 1], rSetfl := true }

/-- Oracle for the C1 witness: blocking descriptor, one read handing over all
requested bytes. -/
def c1Cfg : ExecCfg :=
  { allocOk := true, allocErrno := 0, getfl := Except.ok 0,
    setfl := Except.ok (), sched := [RdStep.rok 3],
    rGetfl := Except.ok 0, rSetfl := Except.ok () }

/-- Result of the C1 witness run. -/
def c1Res : ExecResult :=
  { out := ExecOut.okDone, buffer := [1, 2, 3], freed := false,
    restoreApplied := 0, remaining := [4], count := 3 }

/-- Oracle for the C4 witness: non-blocking descriptor, the read loop
succeeds in one call, the restoring F_GETFL fails with errno 9. -/
def c4Cfg : ExecCfg :=
  { allocOk := true, allocErrno := 0, getfl := Except.ok oNONBLOCK,
    setfl := Except.ok (), sched := [RdStep.rok 3],
    rGetfl := Except.error 9, rSetfl := Except.ok () }

/-- Result of the C4 witness run. -/
def c4Res : ExecResult :=
  { out := ExecOut.errDone "systemError" "fnctl failed: Unknown error 9",
    buffer := [7, 8, 9], freed := true, restoreApplied := 0,
    remaining := [10], count := 3 }

/-- Oracle for the C5 witness: blocking descriptor, the peer sends 2 bytes
and closes while 5 were requested. -/
def c5Cfg : ExecCfg :=
  { allocOk := true, allocErrno := 0, getfl := Except.ok 0,
    setfl := Except.ok (), sched := [RdStep.rok 5, RdStep.rok 5],
    rGetfl := Except.ok 0, rSetfl := Except.ok () }

/-- Result of the C5 witness run. -/
def c5Res : ExecResult :=
  { out := ExecOut.errDone "endOfFile" "reached end of stream (read 2 bytes)",
    buffer := [], freed := true, restoreApplied := 0,
    remaining := [], count := 2 }

/-- Oracle for the C10 witness: non-blocking descriptor, the first read
reports end of stream, and the restoring F_GETFL then fails with errno 9. -/
def c10Cfg : ExecCfg :=
  { allocOk := true, allocErrno := 0, getfl := Except.ok oNONBLOCK,
    setfl := Except.ok (), sched := [RdStep.rok 0],
    rGetfl := Except.error 9, rSetfl := Except.ok () }

/-- Result of the C10 witness run. -/
def c10Res : ExecResult :=
  { out := ExecOut.errDone "endOfFile" "reached end of stream (read 0 bytes)",
    buffer := [], freed := true, restoreApplied := 0,
    remaining := [1, 2, 3], count := 0 }

/-- The enumeration of C7 for an unresolvable descriptor: missing or
non-object _handle, a handle not constructed as TCP, or a missing,
non-numeric or negative fd field. -/
def fdUnresolvable (v : JSVal) : Bool :=
  match v.getField "_handle" with
  | none => true
  | some h =>
      match h with
      | JSVal.obj ctor fields =>
          if ctor = "TCP" then
            match lookupField fields "fd" with
            | some (JSVal.num q) => decide (toInt32 q < 0)
            | _ => true
          else true
      | _ => true

/-- A readable Socket whose _handle is not even an object, so no descriptor
can be resolved from it. -/
def malformedSocket : JSVal :=
  JSVal.obj "Socket"
    [("readable", JSVal.jsBool true), ("_handle", JSVal.num (Rat.mk' 3 1))]

/-- Oracle for the C9 witness: blocking descriptor, one read hands over all
ten requested bytes. -/
def c9Cfg : ExecCfg :=
  { allocOk := true, allocErrno := 0, getfl := Except.ok 0,
    setfl := Except.ok (), sched := [RdStep.rok 10],
    rGetfl := Except.ok 0, rSetfl := Except.ok () }

/-- Helper: taking n bytes then k more bytes off a stream is taking n + k
bytes. -/
theorem take_then_take (s : List Nat) (n k : Nat) :
    s.take n ++ (s.drop n).take k = s.take (n + k) := by
  have h := List.take_append_drop n (s.take (n + k))
  have h1 : (s.take (n + k)).take n = s.take n := by
    rw [List.take_take]
    congr 1
    omega
  have h2 : (s.take (n + k)).drop n = (s.drop n).take k := by
    rw [List.drop_take]
    congr 1
    omega
  rw [h1, h2] at h
  exact h

/-- Soundness invariant of the bounded read loop: count only grows and never
beyond size, the bytes consumed off the stream are exactly the count
increase, a success result holds exactly the first size bytes, and an
end-of-stream result has read strictly fewer than size bytes. -/
theorem runLoop_sound (size : Nat) (sched : List RdStep) :
    ∀ (count : Nat) (buf s : List Nat) (res : LoopRes),
      buf.length = count → count ≤ size →
      runLoop size count buf s sched = some res →
      count ≤ res.countOf ∧ res.countOf ≤ size ∧
      res.countOf - count ≤ s.length ∧
      res.restOf = s.drop (res.countOf - count) ∧
      (∀ b r, res = LoopRes.success b r →
        b = buf ++ s.take (size - count) ∧ b.length = size) ∧
      (∀ c r, res = LoopRes.eof c r → count < size → c < size) := by
  induction sched with
  | nil =>
    intro count buf s res _ _ h
    simp [runLoop] at h
  | cons step rest ih =>
    intro count buf s res h1 h2 h
    cases step with
    | rerr e =>
      by_cases he : e = EINTR
      · rw [runLoop, if_pos he] at h
        exact ih count buf s res h1 h2 h
      · rw [runLoop, if_neg he] at h
        injection h with h
        subst h
        refine ⟨Nat.le_refl _, h2, by simp [LoopRes.countOf],
          by simp [LoopRes.countOf, LoopRes.restOf], ?_, ?_⟩
        · intro b r hbr; cases hbr
        · intro c r hcr; cases hcr
    | rok m =>
      rw [runLoop] at h
      set n := min m (min (size - count) s.length) with hndef
      have hns : n ≤ s.length := by omega
      have hnk : n ≤ size - count := by omega
      by_cases hn : n = 0
      · rw [if_pos hn] at h
        injection h with h
        subst h
        refine ⟨Nat.le_refl _, h2, by simp [LoopRes.countOf],
          by simp [LoopRes.countOf, LoopRes.restOf], ?_, ?_⟩
        · intro b r hbr; cases hbr
        · intro c r hcr hlt
          injection hcr with hc hr
          omega
      · rw [if_neg hn] at h
        by_cases hlt : count + n < size
        · rw [if_pos hlt] at h
          have hlen : (buf ++ s.take n).length = count + n := by
            simp [h1, List.length_take]
            omega
          obtain ⟨ha, hb, hc, hd, he, hf⟩ :=
            ih (count + n) (buf ++ s.take n) (s.drop n) res hlen (by omega) h
          refine ⟨by omega, hb, ?_, ?_, ?_, ?_⟩
          · have := List.length_drop n s
            omega
          · rw [hd, List.drop_drop]
            congr 1
            omega
          · intro b r hbr
            obtain ⟨hb1, hb2⟩ := he b r hbr
            constructor
            · rw [hb1, List.append_assoc]
              have e1 : size - (count + n) = size - count - n := by omega
              rw [e1, take_then_take]
              have e2 : n + (size - count - n) = size - count := by omega
              rw [e2]
            · exact hb2
          · intro c r hcr _
            exact hf c r hcr (by omega)
        · rw [if_neg hlt] at h
          injection h with h
          subst h
          have hcn : count + n = size := by omega
          refine ⟨?_, ?_, ?_, ?_, ?_, ?_⟩
          · simp only [LoopRes.countOf, List.length_append, h1, List.length_take]
            omega
          · simp only [LoopRes.countOf, List.length_append, h1, List.length_take]
            omega
          · simp only [LoopRes.countOf, List.length_append, h1, List.length_take]
            omega
          · simp only [LoopRes.restOf, LoopRes.countOf, List.length_append, h1,
              List.length_take]
            congr 1
            omega
          · intro b r hbr
            injection hbr with hb hr
            constructor
            · rw [← hb]
              congr 1
              congr 1
              omega
            · rw [← hb]
              simp only [List.length_append, h1, List.length_take]
              omega
          · intro c r hcr
            cases hcr

theorem afterLoop_c1 (size : Nat) (stream : List Nat) (cfg : ExecCfg) (wnb : Bool)
    (res : LoopRes) (hloop : runLoop size 0 [] stream cfg.sched = some res) :
    (∀ b, deliver (afterLoop cfg wnb res) = Delivery.successCb b →
        b = stream.take size ∧ b.length = size) ∧
    (afterLoop cfg wnb res).count ≤ size ∧
    (afterLoop cfg wnb res).remaining = stream.drop (afterLoop cfg wnb res).count := by
  obtain ⟨ha, hb, hc, hd, he, hf⟩ :=
    runLoop_sound size cfg.sched 0 [] stream res (by simp) (Nat.zero_le _) hloop
  cases res with
  | success b rest =>
    obtain ⟨he1, he2⟩ := he b rest rfl
    simp only [List.nil_append, Nat.sub_zero] at he1
    simp only [LoopRes.countOf, LoopRes.restOf, Nat.sub_zero] at hb hd
    cases hu : (unsetBlocking cfg wnb).1 with
    | ok u =>
      simp only [afterLoop, hu]
      refine ⟨?_, hb, hd⟩
      intro b2 hb2
      simp only [deliver] at hb2
      injection hb2 with hb2
      subst hb2
      exact ⟨he1, he2⟩
    | error e =>
      simp only [afterLoop, hu]
      refine ⟨?_, hb, hd⟩
      intro b2 hb2
      simp [deliver, errorWithProperty] at hb2
  | sysErr e c rest =>
    simp only [LoopRes.countOf, LoopRes.restOf, Nat.sub_zero] at hb hd
    refine ⟨?_, ?_, ?_⟩
    · intro b2 hb2
      simp [afterLoop, deliver, errorWithProperty] at hb2
    · simpa [afterLoop] using hb
    · simpa [afterLoop] using hd
  | eof c rest =>
    simp only [LoopRes.countOf, LoopRes.restOf, Nat.sub_zero] at hb hd
    refine ⟨?_, ?_, ?_⟩
    · intro b2 hb2
      simp [afterLoop, deliver, errorWithProperty] at hb2
    · simpa [afterLoop] using hb
    · simpa [afterLoop] using hd

/-- C1: a request that terminates with Success delivers callback(null, buffer)
where the buffer holds exactly the first size bytes the descriptor delivered,
in order; and on every terminal outcome the final count never exceeds the
requested size and exactly count bytes were consumed off the descriptor, so
at most size bytes are ever consumed (the unread rest of the stream is left
behind for an independent reader). -/
theorem c1_exact_bytes_and_bounded_consumption (size : Nat) (stream : List Nat)
    (cfg : ExecCfg) (r : ExecResult) (h : execWorker size stream cfg = some r) :
    (∀ b, deliver r = Delivery.successCb b → b = stream.take size ∧ b.length = size) ∧
    r.count ≤ size ∧ r.remaining = stream.drop r.count := by
  rw [execWorker] at h
  split at h
  next hA =>
    injection h with h
    subst h
    refine ⟨?_, by simp [mallocFailRes], by simp [mallocFailRes]⟩
    intro b hb
    simp [deliver, mallocFailRes, errorWithProperty] at hb
  next hA =>
    split at h
    next e hg =>
      injection h with h
      subst h
      refine ⟨?_, by simp [fcntlFailRes], by simp [fcntlFailRes]⟩
      intro b hb
      simp [deliver, fcntlFailRes, errorWithProperty] at hb
    next opts hg =>
      split at h
      next hw =>
        split at h
        next e hs =>
          injection h with h
          subst h
          refine ⟨?_, by simp [fcntlFailRes], by simp [fcntlFailRes]⟩
          intro b hb
          simp [deliver, fcntlFailRes, errorWithProperty] at hb
        next u hs =>
          obtain ⟨res, hres, hr⟩ := Option.map_eq_some'.mp h
          rw [← hr]
          exact afterLoop_c1 size stream cfg true res hres
      next hw =>
        obtain ⟨res, hres, hr⟩ := Option.map_eq_some'.mp h
        rw [← hr]
        exact afterLoop_c1 size stream cfg false res hres

/-- C1 witness: the theorem applied to a concrete successful run. -/
theorem c1_witness :
    (∀ b, deliver c1Res = Delivery.successCb b →
        b = [1, 2, 3, 4].take 3 ∧ b.length = 3) ∧
    c1Res.count ≤ 3 ∧ c1Res.remaining = [1, 2, 3, 4].drop c1Res.count :=
  c1_exact_bytes_and_bounded_consumption 3 [1, 2, 3, 4] c1Cfg c1Res (by decide)

/-- C2 counterexample: in the async worker a read failing with errno EAGAIN is
not retried; the whole request ends with a systemError error reaching the
completion handler, contradicting the claim that EAGAIN never produces a
SystemError outcome. -/
theorem c2_counterexample :
    posixRead [sampleSocket, JSVal.num (Rat.mk' 10 1), JSVal.fn] [1, 2, 3] eagainCfg =
      some (PipeOut.delivered (Delivery.errorCb ["systemError"]
        "read failed: Resource temporarily unavailable")) := by decide

/-- C2 amended: errno EINTR is transparently retried by both read loops and
never surfaces; errno EAGAIN is transparently retried by the legacy
synchronous loop only, while the async worker loop turns it into an
immediate read-failed result (which becomes a systemError error). -/
theorem c2_amended_eintr_transparent_eagain_only_legacy
    (size count : Nat) (buf s : List Nat) (rest : List RdStep) :
    runLoop size count buf s (RdStep.rerr EINTR :: rest) = runLoop size count buf s rest ∧
    runLoopL size count buf s (RdStep.rerr EINTR :: rest) = runLoopL size count buf s rest ∧
    runLoopL size count buf s (RdStep.rerr EAGAIN :: rest) = runLoopL size count buf s rest ∧
    runLoop size count buf s (RdStep.rerr EAGAIN :: rest) =
      some (LoopRes.sysErr EAGAIN count s) := by
  refine ⟨?_, ?_, ?_, ?_⟩ <;> simp [runLoop, runLoopL, EINTR, EAGAIN]

/-- C3: evaluation of the legacy synchronous Read at the failing input.  The
descriptor's non-blocking flag was set at entry and was cleared by the guard,
the loop exits through the EndOfFile path, and the code returns after
throwing without ever re-applying O_NONBLOCK (its own TODO comment records
the missing restore), contradicting the claim that the flag is re-applied
exactly once on every exit path of the loop. -/
theorem c3_code_bug_legacy_skips_restore_on_eof :
    execLegacy 10 [] legacyNbCfg =
      some { out := LegacyOut.thrownErr "reached end of stream (read 0 bytes)",
             restoreApplied := 0, remaining := [], wasNonBlocking := true } := by decide

theorem restoreFails_unset (cfg : ExecCfg) (hrf : restoreFails cfg = true) :
    ∃ e, (unsetBlocking cfg true).1 = Except.error e := by
  unfold restoreFails at hrf
  cases hg : cfg.rGetfl with
  | error e => exact ⟨e, by simp [unsetBlocking, hg]⟩
  | ok v =>
    rw [hg] at hrf
    cases hs : cfg.rSetfl with
    | error e => exact ⟨e, by simp [unsetBlocking, hg, hs]⟩
    | ok u => rw [hs] at hrf; cases hrf

theorem execWorker_reaches (size : Nat) (stream : List Nat) (cfg : ExecCfg)
    (hreach : reachesLoop cfg = true) :
    execWorker size stream cfg =
      (runLoop size 0 [] stream cfg.sched).map (afterLoop cfg (wasNB cfg)) := by
  unfold reachesLoop at hreach
  rw [Bool.and_eq_true] at hreach
  obtain ⟨hA, hX⟩ := hreach
  rw [execWorker]
  cases hg : cfg.getfl with
  | error e => simp [hg] at hX
  | ok opts =>
    simp only [hg] at hX
    by_cases hw : nbSet opts = true
    · rw [if_pos hw] at hX
      cases hs : cfg.setfl with
      | error e => simp [hs] at hX
      | ok u => simp [hA, hg, hw, hs, wasNB]
    · simp [hA, hg, hw, wasNB]

/-- C4: when the read loop itself completed successfully but the descriptor
was non-blocking at entry and UnsetBlocking fails, the worker records a
systemError outcome (which HandleErrorCallback then delivers) and frees the
buffer: the restoration failure is never masked by the prior success. -/
theorem c4_restore_failure_overrides_success (size : Nat) (stream : List Nat)
    (cfg : ExecCfg) (b rest : List Nat) (r : ExecResult)
    (hloop : runLoop size 0 [] stream cfg.sched = some (LoopRes.success b rest))
    (hreach : reachesLoop cfg = true)
    (hwnb : wasNB cfg = true)
    (hrf : restoreFails cfg = true)
    (h : execWorker size stream cfg = some r) :
    (∃ m, r.out = ExecOut.errDone "systemError" m) ∧ r.freed = true := by
  rw [execWorker_reaches size stream cfg hreach, hwnb, hloop, Option.map_some'] at h
  injection h with h
  obtain ⟨e, hu⟩ := restoreFails_unset cfg hrf
  rw [← h]
  simp [afterLoop, hu]

/-- C4 witness: the theorem applied to a concrete run whose loop succeeded
and whose restoring fcntl failed. -/
theorem c4_witness :
    (∃ m, c4Res.out = ExecOut.errDone "systemError" m) ∧ c4Res.freed = true :=
  c4_restore_failure_overrides_success 3 [7, 8, 9, 10] c4Cfg [7, 8, 9] [10] c4Res
    (by decide) (by decide) (by decide) (by decide) (by decide)

/-- C5: when a read call returns 0 while count is still short of the
requested size, the worker records an endOfFile outcome whose message embeds
the exact number of bytes read so far, that count is strictly below the
requested size, and it equals exactly the number of bytes consumed off the
descriptor. -/
theorem c5_eof_reports_exact_count (size : Nat) (stream : List Nat)
    (cfg : ExecCfg) (c : Nat) (rest : List Nat) (r : ExecResult)
    (hsize : 0 < size)
    (hreach : reachesLoop cfg = true)
    (hloop : runLoop size 0 [] stream cfg.sched = some (LoopRes.eof c rest))
    (h : execWorker size stream cfg = some r) :
    r.out = ExecOut.errDone "endOfFile"
      ("reached end of stream (read " ++ toString c ++ " bytes)") ∧
    c < size ∧ c = stream.length - r.remaining.length := by
  obtain ⟨ha, hb, hc, hd, he, hf⟩ :=
    runLoop_sound size cfg.sched 0 [] stream (LoopRes.eof c rest) (by simp)
      (Nat.zero_le _) hloop
  simp only [LoopRes.countOf, LoopRes.restOf, Nat.sub_zero] at hc hd
  rw [execWorker_reaches size stream cfg hreach, hloop, Option.map_some'] at h
  injection h with h
  rw [← h]
  refine ⟨by simp [afterLoop], hf c rest rfl hsize, ?_⟩
  simp only [afterLoop]
  rw [hd, List.length_drop]
  omega

/-- C5 witness: the theorem applied to a run where the peer closed after two
of five requested bytes. -/
theorem c5_witness :
    c5Res.out = ExecOut.errDone "endOfFile"
      ("reached end of stream (read " ++ toString 2 ++ " bytes)") ∧
    2 < 5 ∧ 2 = ([1, 2] : List Nat).length - c5Res.remaining.length :=
  c5_eof_reports_exact_count 5 [1, 2] c5Cfg 2 [] c5Res
    (by decide) (by decide) (by decide) (by decide)

/-- C10: when the read loop already recorded an error (read failure or end
of stream) and UnsetBlocking then also fails, the worker's outcome is
exactly the original loop error: the restoration failure is silently
dropped and never reaches the completion handler. -/
theorem c10_restore_failure_after_loop_error_dropped (size : Nat)
    (stream : List Nat) (cfg : ExecCfg) (res : LoopRes) (o : ExecOut)
    (r : ExecResult)
    (hreach : reachesLoop cfg = true)
    (hwnb : wasNB cfg = true)
    (hrf : restoreFails cfg = true)
    (hloop : runLoop size 0 [] stream cfg.sched = some res)
    (ho : loopErrOut res = some o)
    (h : execWorker size stream cfg = some r) :
    r.out = o := by
  rw [execWorker_reaches size stream cfg hreach, hwnb, hloop, Option.map_some'] at h
  injection h with h
  rw [← h]
  cases res with
  | success b rest => simp [loopErrOut] at ho
  | sysErr e c rest =>
    injection ho with ho
  | eof c rest =>
    injection ho with ho

/-- C10 witness: the theorem applied to a run that hit end of stream and
whose restoring fcntl failed; the delivered outcome is only the original
endOfFile error. -/
theorem c10_witness :
    c10Res.out = ExecOut.errDone "endOfFile" "reached end of stream (read 0 bytes)" :=
  c10_restore_failure_after_loop_error_dropped 4 [1, 2, 3] c10Cfg
    (LoopRes.eof 0 [1, 2, 3])
    (ExecOut.errDone "endOfFile" "reached end of stream (read 0 bytes)") c10Res
    (by decide) (by decide) (by decide) (by decide) (by decide) (by decide)

/-- C6 counterexample: the positive non-integer 5/2 (JavaScript 2.5) is
accepted by the size check, which truncates it to 2 and queues the worker,
instead of raising the claimed TypeError. -/
theorem c6_counterexample :
    readSync [sampleSocket, JSVal.num (Rat.mk' 5 2), JSVal.fn] = SyncOut.queued 5 2 ∧
    readSync [sampleSocket, JSVal.num (Rat.mk' 5 2), JSVal.fn] ≠
      SyncOut.thrown "second argument should be a positive integer" := by
  exact ⟨by decide, by decide⟩

/-- C6 amended: after the socket-shape check passes, the size TypeError is
thrown exactly when the second argument is not a number or its ToInt32
truncation is not positive (wrong type, zero, negative, or a non-integer that
truncates to a non-positive value); a number whose ToInt32 truncation is
positive — including a positive non-integer such as 2.5 — is accepted, and
the queued request uses the truncated value as its size. -/
theorem c6_amended_size_check_uses_toint32 (a0 a1 a2 : JSVal) :
    (readSync [a0, a1, a2] = SyncOut.thrown "second argument should be a positive integer" ↔
      looksLikeASocket a0 = true ∧ sizeArgOk a1 = false) ∧
    (∀ fd n, readSync [a0, a1, a2] = SyncOut.queued fd n → n = (numberToInt a1).toNat) := by
  cases h0 : looksLikeASocket a0 with
  | false => simp [readSync, h0]
  | true =>
    cases h1 : sizeArgOk a1 with
    | false => simp [readSync, h0, h1]
    | true =>
      cases h2 : JSVal.isFunction a2 with
      | false => simp [readSync, h0, h1, h2]
      | true =>
        cases h3 : socketIsReadable a0 with
        | false => simp [readSync, h0, h1, h2, h3]
        | true =>
          by_cases h4 : getFdFromSocket a0 = -1
          · simp [readSync, h0, h1, h2, h3, h4]
          · simp [readSync, h0, h1, h2, h3, h4]

/-- C6 amended witness: a zero size is rejected with the TypeError. -/
theorem c6_amended_witness :
    readSync [sampleSocket, JSVal.num (Rat.mk' 0 1), JSVal.fn] =
      SyncOut.thrown "second argument should be a positive integer" :=
  (c6_amended_size_check_uses_toint32 sampleSocket (JSVal.num (Rat.mk' 0 1)) JSVal.fn).1.mpr
    (by decide)

theorem getFd_neg_one_iff (v : JSVal) :
    getFdFromSocket v = -1 ↔ fdUnresolvable v = true := by
  unfold getFdFromSocket fdUnresolvable
  cases hh : v.getField "_handle" with
  | none => simp
  | some h =>
    cases h with
    | obj ctor fields =>
      dsimp only
      by_cases hc : ctor = "TCP"
      · rw [if_pos hc, if_pos hc]
        cases hf : lookupField fields "fd" with
        | none => simp
        | some fv =>
          cases fv with
          | num q =>
            dsimp only
            by_cases hq : toInt32 q < 0
            · rw [if_pos hq]
              simp [hq]
            · rw [if_neg hq]
              simp only [decide_eq_true_eq]
              constructor
              · intro he
                omega
              · intro he
                exact absurd he hq
          | undef => simp
          | jsNull => simp
          | jsBool b => simp
          | str s => simp
          | fn => simp
          | obj c2 f2 => simp
      · rw [if_neg hc, if_neg hc]
        simp
    | undef => simp
    | jsNull => simp
    | jsBool b => simp
    | num q => simp
    | str s => simp
    | fn => simp

/-- C7: once the three synchronous argument checks pass, the run-time stream
checks are reported through the callback and never thrown: a socket whose
readable flag is not true yields a badStream error with message
"socket is not readable"; a readable socket whose descriptor cannot be
resolved yields a badStream error with message
"malformed socket object, cannot get file descriptor"; and the descriptor is
unresolvable exactly when the _handle is missing or not an object, the
handle is not a TCP object, or the fd field is missing, non-numeric or
negative. -/
theorem c7_runtime_checks_via_callback (a0 a1 a2 : JSVal)
    (h0 : looksLikeASocket a0 = true) (h1 : sizeArgOk a1 = true)
    (h2 : JSVal.isFunction a2 = true) :
    (socketIsReadable a0 = false →
      readSync [a0, a1, a2] =
        SyncOut.delivered (errorWithProperty "badStream" "socket is not readable")) ∧
    (socketIsReadable a0 = true → getFdFromSocket a0 = -1 →
      readSync [a0, a1, a2] =
        SyncOut.delivered (errorWithProperty "badStream"
          "malformed socket object, cannot get file descriptor")) ∧
    (getFdFromSocket a0 = -1 ↔ fdUnresolvable a0 = true) := by
  refine ⟨?_, ?_, getFd_neg_one_iff a0⟩
  · intro h3
    simp [readSync, h0, h1, h2, h3]
  · intro h3 h4
    simp [readSync, h0, h1, h2, h3, h4]

/-- C7 witness: a readable socket whose _handle is a plain number produces
the malformed-socket badStream error through the callback. -/
theorem c7_witness :
    readSync [malformedSocket, JSVal.num (Rat.mk' 4 1), JSVal.fn] =
      SyncOut.delivered (errorWithProperty "badStream"
        "malformed socket object, cannot get file descriptor") :=
  (c7_runtime_checks_via_callback malformedSocket (JSVal.num (Rat.mk' 4 1)) JSVal.fn
    (by decide) (by decide) (by decide)).2.1 (by decide) (by decide)

theorem afterLoop_freed_iff (cfg : ExecCfg) (wnb : Bool) (res : LoopRes) :
    ((afterLoop cfg wnb res).freed = true ↔ (afterLoop cfg wnb res).out ≠ ExecOut.okDone) ∧
    ((afterLoop cfg wnb res).out = ExecOut.okDone →
      deliver (afterLoop cfg wnb res) =
        Delivery.successCb (afterLoop cfg wnb res).buffer) := by
  cases res with
  | success b rest =>
    cases hu : (unsetBlocking cfg wnb).1 with
    | error e => simp [afterLoop, hu, deliver, errorWithProperty]
    | ok u => simp [afterLoop, hu, deliver]
  | sysErr e c rest => simp [afterLoop, deliver, errorWithProperty]
  | eof c rest => simp [afterLoop, deliver, errorWithProperty]

/-- C8: on every run whose buffer allocation succeeded, free(data) is called
exactly when the outcome is not Success; on Success the buffer is not freed
and HandleOKCallback hands exactly that buffer to the completion handler
(ownership transfers to the caller). -/
theorem c8_buffer_freed_iff_not_success (size : Nat) (stream : List Nat)
    (cfg : ExecCfg) (r : ExecResult)
    (hA : cfg.allocOk = true)
    (h : execWorker size stream cfg = some r) :
    (r.freed = true ↔ r.out ≠ ExecOut.okDone) ∧
    (r.out = ExecOut.okDone → deliver r = Delivery.successCb r.buffer) := by
  rw [execWorker] at h
  split at h
  next hA2 => rw [hA] at hA2; cases hA2
  next =>
    split at h
    next e hg =>
      injection h with h
      rw [← h]
      simp [fcntlFailRes, deliver, errorWithProperty]
    next opts hg =>
      split at h
      next hw =>
        split at h
        next e hs =>
          injection h with h
          rw [← h]
          simp [fcntlFailRes, deliver, errorWithProperty]
        next u hs =>
          obtain ⟨res, hres, hr⟩ := Option.map_eq_some'.mp h
          rw [← hr]
          exact afterLoop_freed_iff cfg true res
      next hw =>
        obtain ⟨res, hres, hr⟩ := Option.map_eq_some'.mp h
        rw [← hr]
        exact afterLoop_freed_iff cfg false res

/-- C8 witness: the theorem applied to a successful concrete run (buffer not
freed, transferred to the callback). -/
theorem c8_witness :
    (c1Res.freed = true ↔ c1Res.out ≠ ExecOut.okDone) ∧
    (c1Res.out = ExecOut.okDone → deliver c1Res = Delivery.successCb c1Res.buffer) :=
  c8_buffer_freed_iff_not_success 3 [1, 2, 3, 4] c1Cfg c1Res (by decide) (by decide)

theorem readSync_delivered_cases (args : List JSVal) (d : Delivery)
    (h : readSync args = SyncOut.delivered d) :
    d = errorWithProperty "badStream" "socket is not readable" ∨
    d = errorWithProperty "badStream" "malformed socket object, cannot get file descriptor" := by
  rcases args with _ | ⟨a0, args⟩
  · simp [readSync] at h
  rcases args with _ | ⟨a1, args⟩
  · simp [readSync] at h
  rcases args with _ | ⟨a2, args⟩
  · simp [readSync] at h
  rcases args with _ | ⟨a3, args⟩
  swap
  · simp [readSync] at h
  simp only [readSync] at h
  split_ifs at h
  all_goals try cases h
  · exact Or.inl rfl
  · exact Or.inr rfl

theorem afterLoop_errProp (cfg : ExecCfg) (wnb : Bool) (res : LoopRes)
    (p m : String) (hp : (afterLoop cfg wnb res).out = ExecOut.errDone p m) :
    p = "systemError" ∨ p = "endOfFile" := by
  cases res with
  | success b rest =>
    cases hu : (unsetBlocking cfg wnb).1 with
    | error e =>
      rw [afterLoop] at hp
      simp only [hu] at hp
      injection hp with hp _
      exact Or.inl hp.symm
    | ok u =>
      rw [afterLoop] at hp
      simp only [hu] at hp
      cases hp
  | sysErr e c rest =>
    rw [afterLoop] at hp
    injection hp with hp _
    exact Or.inl hp.symm
  | eof c rest =>
    rw [afterLoop] at hp
    injection hp with hp _
    exact Or.inr hp.symm

theorem execWorker_errProp (size : Nat) (stream : List Nat) (cfg : ExecCfg)
    (r : ExecResult) (p m : String)
    (h : execWorker size stream cfg = some r)
    (hp : r.out = ExecOut.errDone p m) :
    p = "systemError" ∨ p = "endOfFile" := by
  rw [execWorker] at h
  split at h
  next =>
    injection h with h
    rw [← h] at hp
    injection hp with hp _
    exact Or.inl hp.symm
  next =>
    split at h
    next e hg =>
      injection h with h
      rw [← h] at hp
      injection hp with hp _
      exact Or.inl hp.symm
    next opts hg =>
      split at h
      next hw =>
        split at h
        next e hs =>
          injection h with h
          rw [← h] at hp
          injection hp with hp _
          exact Or.inl hp.symm
        next u hs =>
          obtain ⟨res, hres, hr⟩ := Option.map_eq_some'.mp h
          rw [← hr] at hp
          exact afterLoop_errProp cfg true res p m hp
      next hw =>
        obtain ⟨res, hres, hr⟩ := Option.map_eq_some'.mp h
        rw [← hr] at hp
        exact afterLoop_errProp cfg false res p m hp

/-- C9: every run that passes the synchronous argument validation delivers
exactly one callback invocation carrying one terminal outcome: either
callback(null, buffer), whose outcome is Success, or a single error carrying
exactly one of the flags badStream, endOfFile or systemError; the encoded
outcome is never Pending. -/
theorem c9_exactly_one_terminal_outcome (args : List JSVal) (stream : List Nat)
    (cfg : ExecCfg) (d : Delivery)
    (h : posixRead args stream cfg = some (PipeOut.delivered d)) :
    outcomeOf d ≠ Outcome.Pending ∧
    (∀ ps m, d = Delivery.errorCb ps m →
      ps = ["badStream"] ∨ ps = ["endOfFile"] ∨ ps = ["systemError"]) ∧
    (∀ b, d = Delivery.successCb b → outcomeOf d = Outcome.Success) := by
  rw [posixRead] at h
  cases hs : readSync args with
  | thrown m => rw [hs] at h; cases h
  | delivered d2 =>
    rw [hs] at h
    injection h with h
    injection h with h
    subst h
    rcases readSync_delivered_cases args d2 hs with h2 | h2 <;> subst h2
    · refine ⟨by simp [outcomeOf, errorWithProperty], ?_, ?_⟩
      · intro ps m hpm
        injection hpm with hps _
        exact Or.inl hps.symm
      · intro b hb
        cases hb
    · refine ⟨by simp [outcomeOf, errorWithProperty], ?_, ?_⟩
      · intro ps m hpm
        injection hpm with hps _
        exact Or.inl hps.symm
      · intro b hb
        cases hb
  | queued fd size =>
    rw [hs] at h
    obtain ⟨r, hr, hd⟩ := Option.map_eq_some'.mp h
    injection hd with hd
    subst hd
    cases ho : r.out with
    | okDone =>
      refine ⟨by simp [deliver, ho, outcomeOf], ?_, ?_⟩
      · intro ps m hpm
        rw [deliver, ho] at hpm
        cases hpm
      · intro b hb
        simp [deliver, ho, outcomeOf]
    | errDone p m =>
      rcases execWorker_errProp size stream cfg r p m hr ho with hp | hp <;> subst hp
      · refine ⟨by simp [deliver, ho, errorWithProperty, outcomeOf], ?_, ?_⟩
        · intro ps m2 hpm
          rw [deliver, ho] at hpm
          injection hpm with hps _
          exact Or.inr (Or.inr hps.symm)
        · intro b hb
          rw [deliver, ho] at hb
          cases hb
      · refine ⟨by simp [deliver, ho, errorWithProperty, outcomeOf], ?_, ?_⟩
        · intro ps m2 hpm
          rw [deliver, ho] at hpm
          injection hpm with hps _
          exact Or.inr (Or.inl hps.symm)
        · intro b hb
          rw [deliver, ho] at hb
          cases hb

/-- C9 witness: the theorem applied to a concrete successful request. -/
theorem c9_witness :
    outcomeOf (Delivery.successCb [1, 2, 3, 4, 5, 6, 7, 8, 9, 10]) ≠ Outcome.Pending ∧
    (∀ ps m, Delivery.successCb [1, 2, 3, 4, 5, 6, 7, 8, 9, 10] = Delivery.errorCb ps m →
      ps = ["badStream"] ∨ ps = ["endOfFile"] ∨ ps = ["systemError"]) ∧
    (∀ b, Delivery.successCb [1, 2, 3, 4, 5, 6, 7, 8, 9, 10] = Delivery.successCb b →
      outcomeOf (Delivery.successCb [1, 2, 3, 4, 5, 6, 7, 8, 9, 10]) = Outcome.Success) :=
  c9_exactly_one_terminal_outcome [sampleSocket, JSVal.num (Rat.mk' 10 1), JSVal.fn]
    [1, 2, 3, 4, 5, 6, 7, 8, 9, 10, 11] c9Cfg
    (Delivery.successCb [1, 2, 3, 4, 5, 6, 7, 8, 9, 10]) (by decide)

/-- C2 amended witness: the amended statement at concrete loop states. -/
theorem c2_amended_witness :
    runLoop 5 0 [] [1] (RdStep.rerr EINTR :: [RdStep.rok 1]) =
      runLoop 5 0 [] [1] [RdStep.rok 1] ∧
    runLoopL 5 0 [] [1] (RdStep.rerr EINTR :: [RdStep.rok 1]) =
      runLoopL 5 0 [] [1] [RdStep.rok 1] ∧
    runLoopL 5 0 [] [1] (RdStep.rerr EAGAIN :: [RdStep.rok 1]) =
      runLoopL 5 0 [] [1] [RdStep.rok 1] ∧
    runLoop 5 0 [] [1] (RdStep.rerr EAGAIN :: [RdStep.rok 1]) =
      some (LoopRes.sysErr EAGAIN 0 [1]) :=
  c2_amended_eintr_transparent_eagain_only_legacy 5 0 [] [1] [RdStep.rok 1]
